import Mathlib

/-!
Verification development for the gemini-scribe transcription pipeline.

The definitions below are a shallow embedding of the TypeScript source:
`src/utils/srtUtils.ts`, `src/utils/audioUtils.ts`,
`src/services/geminiService.ts` and the React orchestrator component
(`processChunks`, `handleEditLine`, ...).  JavaScript numbers are modelled
as `Option ℚ` (`none` models `NaN`); machine floats are idealised as exact
rationals.  Fallible code is modelled with `Except`/`Option`.
-/

/-- JavaScript number addition with NaN propagation (`none` = NaN). -/
def jadd : Option ℚ → Option ℚ → Option ℚ
  | some a, some b => some (a + b)
  | _, _ => none

/-- JavaScript number subtraction with NaN propagation. -/
def jsub : Option ℚ → Option ℚ → Option ℚ
  | some a, some b => some (a - b)
  | _, _ => none

/-- JavaScript number multiplication with NaN propagation. -/
def jmul : Option ℚ → Option ℚ → Option ℚ
  | some a, some b => some (a * b)
  | _, _ => none

/-- JavaScript `<` comparison: any comparison against NaN is false. -/
def jlt : Option ℚ → Option ℚ → Bool
  | some a, some b => decide (a < b)
  | _, _ => false

/-- Numeric value of a list of decimal digit characters. -/
def digitsVal (ds : List Char) : ℕ :=
  ds.foldl (fun a c => a * 10 + (c.toNat - 48)) 0

/-- The scanning phase of JavaScript `parseFloat` on the decimal forms
used by timestamps: optional leading whitespace, optional sign, digits,
optional fractional part; the longest valid prefix is scanned and `none`
models `NaN` (no digits at all).  Returns the sign flag, the integer
digits value, the fraction digits value and the fraction length.
Exponent notation and `Infinity` are not modelled; the timestamps handled
by the program never use them. -/
def parseFloatParts (cs0 : List Char) : Option (Bool × ℕ × ℕ × ℕ) :=
  let cs := cs0.dropWhile (fun c => c == ' ' || c == '\t' || c == '\n' || c == '\r')
  let signed : Bool × List Char :=
    match cs with
    | '-' :: rest => (true, rest)
    | '+' :: rest => (false, rest)
    | _ => (false, cs)
  let intSplit := signed.2.span Char.isDigit
  let fracDs : List Char :=
    match intSplit.2 with
    | '.' :: rest => (rest.span Char.isDigit).1
    | _ => []
  if intSplit.1 = [] ∧ fracDs = [] then none
  else some (signed.1, digitsVal intSplit.1, digitsVal fracDs, fracDs.length)

/-- JavaScript `parseFloat` on a character list: the scanned parts
assembled into an exact rational. -/
def jsParseFloatChars (cs0 : List Char) : Option ℚ :=
  (parseFloatParts cs0).map fun p =>
    (if p.1 then (-1 : ℚ) else 1) * ((p.2.1 : ℚ) + (p.2.2.1 : ℚ) / (10 ^ p.2.2.2))

/-- `parseFloat` on a string. -/
def jsParseFloat (s : String) : Option ℚ := jsParseFloatChars s.toList

/-- JavaScript `String.prototype.split(sep)` for a one-character separator,
on character lists (`"".split(':')` is `[""]`, and adjacent separators
yield empty fields, as in JS). -/
def splitOnChar (sep : Char) : List Char → List (List Char)
  | [] => [[]]
  | c :: rest =>
      if c == sep then [] :: splitOnChar sep rest
      else
        match splitOnChar sep rest with
        | [] => [[c]]
        | g :: gs => (c :: g) :: gs

/-- `parseTimestampToSeconds` from `src/utils/srtUtils.ts`: splits on `:`,
applies `parseFloat` to each field, and combines `H:M:S` or `M:S` forms;
any other field count leaves the initial `seconds = 0` untouched. -/
def parseTimestampToSeconds (timestamp : String) : Option ℚ :=
  match (splitOnChar ':' timestamp.toList).map jsParseFloatChars with
  | [h, m, s] => jadd (jadd (jmul h (some 3600)) (jmul m (some 60))) s
  | [m, s] => jadd (jmul m (some 60)) s
  | _ => some 0

/-- `SRTLine` from `src/types.ts` (part_000); times are JS numbers. -/
structure SRTLine where
  id : ℕ
  startTime : Option ℚ
  endTime : Option ℚ
  text : String
deriving DecidableEq, Inhabited

/-- One raw line of a service response (`{start, end, text}`); `end` is a
Lean keyword, so the field is named `stop`. -/
structure SrcLine where
  start : String
  stop : String
  text : String
deriving DecidableEq, Inhabited

/-- `ChunkResult` from `src/types.ts`. -/
structure ChunkResult where
  lines : List SrcLine
  summary : String
deriving DecidableEq, Inhabited

/-- `AudioChunk` from `src/types.ts`; the opaque PCM blob is not modelled. -/
structure AudioChunk where
  startTime : ℚ
  endTime : ℚ
  index : ℕ
  totalChunks : ℕ
deriving DecidableEq, Inhabited

/-- `ProcessingStatus` from `src/types.ts`. -/
inductive ProcessingStatus where
  | IDLE | DECODING | TRANSCRIBING | COMPLETED | ERROR
deriving DecidableEq, Inhabited

/-- JavaScript `ToInteger` of an exact rational: truncation toward zero. -/
def jsToInteger (q : ℚ) : ℤ := q.num / (q.den : ℤ)

/-- Left-pad a natural below 100 to two digits. -/
def pad2 (n : ℕ) : String := if n < 10 then "0" ++ toString n else toString n

/-- Left-pad a natural below 1000 to three digits. -/
def pad3 (n : ℕ) : String :=
  if n < 10 then "00" ++ toString n else if n < 100 then "0" ++ toString n else toString n

/-- `formatSRTTimestamp` from `src/utils/srtUtils.ts`: the source sets the
epoch date's milliseconds to `seconds * 1000` and takes the `HH:MM:SS.mmm`
substring of the ISO string, then replaces `.` by `,`.  Setting the
milliseconds truncates toward zero and the ISO time-of-day is the elapsed
milliseconds modulo one day (faithful for dates within years 0000-9999). -/
def formatSRTTimestamp (seconds : ℚ) : String :=
  let d : ℕ := ((jsToInteger (seconds * 1000)).emod 86400000).toNat
  pad2 (d / 3600000) ++ ":" ++ pad2 (d / 60000 % 60) ++ ":" ++ pad2 (d / 1000 % 60)
    ++ "," ++ pad3 (d % 1000)

/-- JavaScript `Array.prototype.join(sep)`. -/
def joinSep (sep : String) : List String → String
  | [] => ""
  | [x] => x
  | x :: xs => x ++ sep ++ joinSep sep xs

/-- One block produced by the `generateSRTContent` mapper:
`index+1 \ start --> end \ text \n`.  A NaN time makes `toISOString`
throw in the source, modelled as `none`. -/
def srtBlock (idx : ℕ) (l : SRTLine) : Option String :=
  match l.startTime, l.endTime with
  | some a, some b =>
      some (toString (idx + 1) ++ "\n" ++ formatSRTTimestamp a ++ " --> "
        ++ formatSRTTimestamp b ++ "\n" ++ l.text ++ "\n")
  | _, _ => none

/-- Mapping a fallible function over a list, failing if any element fails
(models a thrown exception escaping `Array.prototype.map`). -/
def traverseOption {α β : Type} (f : α → Option β) : List α → Option (List β)
  | [] => some []
  | x :: xs =>
      match f x, traverseOption f xs with
      | some y, some ys => some (y :: ys)
      | _, _ => none

/-- `generateSRTContent` from `src/utils/srtUtils.ts`: maps each line with
its position to a block and joins the blocks with `\n`. -/
def generateSRTContent (lines : List SRTLine) : Option String :=
  (traverseOption (fun p : ℕ × SRTLine => srtBlock p.1 p.2) lines.enum).map
    (joinSep "\n")

/-- Modelled from the spec: one subtitle block as §6 describes it —
1-based sequential number, `start --> end` timestamp line, text — without
a trailing newline. -/
def specBlock (idx : ℕ) (l : SRTLine) : Option String :=
  match l.startTime, l.endTime with
  | some a, some b =>
      some (toString (idx + 1) ++ "\n" ++ formatSRTTimestamp a ++ " --> "
        ++ formatSRTTimestamp b ++ "\n" ++ l.text)
  | _, _ => none

/-- Modelled from the spec: serialization with consecutive blocks separated
by exactly one blank line (and a final newline on a nonempty output). -/
def specSerializeSubtitles (lines : List SRTLine) : Option String :=
  match lines with
  | [] => some ""
  | _ =>
      (traverseOption (fun p : ℕ × SRTLine => specBlock p.1 p.2) lines.enum).map
        (fun bs => joinSep "\n\n" bs ++ "\n")

/-- Target sample rate from `src/utils/audioUtils.ts`. -/
def TARGET_SAMPLE_RATE : ℕ := 16000

/-- Nominal chunk duration (seconds) from `src/utils/audioUtils.ts`. -/
def CHUNK_DURATION_SEC : ℕ := 600

/-- Overlap buffer (seconds) from `src/utils/audioUtils.ts`. -/
def OVERLAP_SEC : ℕ := 10

/-- `processAudioFile` from `src/utils/audioUtils.ts`, modelled at sample
granularity: the decoded, resampled mono PCM signal is abstracted to its
sample count (`totalSamples = duration * 16000`); decode errors and the
opaque WAV payloads are outside the claims.  Chunk `i` slices samples
`[i*chunkSamples, min(totalSamples, i*chunkSamples + chunkSamples +
overlapSamples))` and records absolute times in seconds. -/
def processAudioFile (totalSamples : ℕ) : List AudioChunk :=
  let chunkSamples := CHUNK_DURATION_SEC * TARGET_SAMPLE_RATE
  let overlapSamples := OVERLAP_SEC * TARGET_SAMPLE_RATE
  let totalDuration : ℚ := (totalSamples : ℚ) / (TARGET_SAMPLE_RATE : ℚ)
  let totalChunkCount : ℕ := (⌈totalDuration / (CHUNK_DURATION_SEC : ℚ)⌉).toNat
  (List.range totalChunkCount).map fun i =>
    let startSample := i * chunkSamples
    let endSample := min totalSamples (startSample + chunkSamples + overlapSamples)
    let sliceLen := endSample - startSample
    { startTime := (CHUNK_DURATION_SEC : ℚ) * (i : ℚ)
      endTime := (CHUNK_DURATION_SEC : ℚ) * (i : ℚ) + (sliceLen : ℚ) / (TARGET_SAMPLE_RATE : ℚ)
      index := i
      totalChunks := totalChunkCount }

/-- One streamed response part (`@google/genai`): `thought` flag plus text;
an absent `text` field is modelled as the empty string (JS falsiness). -/
structure StreamPart where
  thought : Bool
  text : String
deriving DecidableEq, Inhabited

/-- The streaming loop of `transcribeChunk` in
`src/services/geminiService.ts`: folds over the received parts, routing a
part with `thought && text` to the reasoning log only (`continue`), and any
other part with text into the content buffer and the content log.  Returns
`(fullText, thinking events, content events)`. -/
def streamAccumulate (parts : List StreamPart) : String × List String × List String :=
  parts.foldl
    (fun acc p =>
      if p.thought && !(p.text == "") then (acc.1, acc.2.1 ++ [p.text], acc.2.2)
      else if !(p.text == "") then (acc.1 ++ p.text, acc.2.1, acc.2.2 ++ [p.text])
      else acc)
    ("", [], [])

/-- The body of the streaming `for` loop in `transcribeChunk`. -/
def streamStep (acc : String × List String × List String) (p : StreamPart) :
    String × List String × List String :=
  if p.thought && !(p.text == "") then (acc.1, acc.2.1 ++ [p.text], acc.2.2)
  else if !(p.text == "") then (acc.1 ++ p.text, acc.2.1, acc.2.2 ++ [p.text])
  else acc

/-- `transcribeChunk` from `src/services/geminiService.ts` after the request
is sent: consumes the stream, fails on an empty content buffer, otherwise
parses the buffer (`JSON.parse` modelled by the `parse` parameter).  The
orchestrator never passes an abort signal, so the signal checks are elided. -/
def transcribeChunk (parse : String → Option ChunkResult) (parts : List StreamPart) :
    Except String ChunkResult :=
  let acc := streamAccumulate parts
  if acc.1 = "" then .error "No response text generated"
  else
    match parse acc.1 with
    | some r => .ok r
    | none => .error "JSON parse error"

/-- The `chunkDurationLimit` constant of `processChunks` in the app
component (part_004): literally `300` (`// 5 minutes`) although the
segmenter cuts 600-second chunks. -/
def chunkDurationLimit : ℚ := 300

/-- The keep/drop predicate of the `filter` in `processChunks`: the last
chunk keeps everything, otherwise the line's segment-relative start must be
below `chunkDurationLimit`. -/
def keepLine (chunkStart : ℚ) (isLastChunk : Bool) (l : SRTLine) : Bool :=
  isLastChunk || jlt (jsub l.startTime (some chunkStart)) (some chunkDurationLimit)

/-- The `result.lines.map(...)` of `processChunks`: every raw line consumes
one id (`currentSrtId++` runs inside the map, before the filter) and gets
absolute times `chunk.startTime + parsed offset`. -/
def mapWithIds (chunkStart : ℚ) : ℕ → List SrcLine → List SRTLine
  | _, [] => []
  | startId, src :: rest =>
      { id := startId
        startTime := jadd (some chunkStart) (parseTimestampToSeconds src.start)
        endTime := jadd (some chunkStart) (parseTimestampToSeconds src.stop)
        text := src.text } :: mapWithIds chunkStart (startId + 1) rest

/-- The `validLines` computation of `processChunks`: map (assigning ids to
every raw line) then filter; also returns the next fresh id, which advanced
once per raw line whether or not the line was kept. -/
def validLines (chunk : AudioChunk) (isLastChunk : Bool) (result : ChunkResult)
    (startId : ℕ) : List SRTLine × ℕ :=
  ((mapWithIds chunk.startTime startId result.lines).filter
      (keepLine chunk.startTime isLastChunk),
    startId + result.lines.length)

/-- Outcome of the per-segment retry loop: the thrown error or the (possibly
null) result, the number of attempts made, and the waits performed (ms). -/
structure RetryOutcome where
  result : Except String (Option ChunkResult)
  attempts : ℕ
  waits : List ℕ
deriving Inhabited

/-- The `while (retries > 0 && !result)` loop of `processChunks`: attempt
`k` is `att k`; a failure decrements `retries` and rethrows when they are
exhausted, otherwise waits 2000 ms and retries. -/
def retryLoop (att : ℕ → Except String ChunkResult) : ℕ → ℕ → RetryOutcome
  | _, 0 => ⟨.ok none, 0, []⟩
  | k, r + 1 =>
      match att k with
      | .ok res => ⟨.ok (some res), 1, []⟩
      | .error e =>
          if r = 0 then ⟨.error e, 1, []⟩
          else
            let o := retryLoop att (k + 1) r
            ⟨o.result, o.attempts + 1, 2000 :: o.waits⟩

/-- The retry loop entered with `retries = 3` as in `processChunks`. -/
def retrySegment (att : ℕ → Except String ChunkResult) : RetryOutcome :=
  retryLoop att 0 3

/-- The component state touched by `processChunks` (React state plus the
`contextSummaryRef` shadow). -/
structure RunState where
  srtLines : List SRTLine
  currentChunkIndex : ℕ
  status : ProcessingStatus
  completed : Bool
  failedChunkIndex : Option ℕ
  error : Option String
  contextSummary : String
deriving DecidableEq, Inhabited

/-- The `for` loop of `processChunks` over the remaining chunk indices.
`att i k` is the outcome of attempt `k` of `transcribeChunk` for chunk `i`
(network, parse and empty-stream failures included); `abort i` is the value
of `signal.aborted` at the check performed before chunk `i`.  Falling out
of the loop (or `break`-ing on abort) runs the completion epilogue. -/
def processLoop (chunks : List AudioChunk) (att : ℕ → ℕ → Except String ChunkResult)
    (abort : ℕ → Bool) : List ℕ → ℕ → RunState → RunState
  | [], _, st => { st with completed := true, status := .COMPLETED }
  | i :: rest, nextId, st =>
      if abort i then { st with completed := true, status := .COMPLETED }
      else
        let chunk := chunks.getD i default
        let st1 := { st with currentChunkIndex := i }
        match (retrySegment (att i)).result with
        | .error e =>
            { st1 with
              error := some ("Error processing chunk " ++ toString (i + 1) ++ ": " ++ e)
              failedChunkIndex := some i
              status := .ERROR }
        | .ok none => processLoop chunks att abort rest nextId st1
        | .ok (some result) =>
            let isLast := i == chunks.length - 1
            let vl := validLines chunk isLast result nextId
            processLoop chunks att abort rest vl.2
              { st1 with
                contextSummary := result.summary
                failedChunkIndex := none
                srtLines := st1.srtLines ++ vl.1 }

/-- `processChunks(audioChunks, startIndex)` from the app component: fresh
abort controller (modelled by `abort`), id seeding (`length + 1` when
resuming, else `1`), then the loop over `[startIndex, length)`. -/
def processChunks (chunks : List AudioChunk) (att : ℕ → ℕ → Except String ChunkResult)
    (abort : ℕ → Bool) (startIndex : ℕ) (st : RunState) : RunState :=
  let currentSrtId := if startIndex > 0 then st.srtLines.length + 1 else 1
  processLoop chunks att abort (List.range' startIndex (chunks.length - startIndex))
    currentSrtId st

/-- The state `startProcessing` establishes just before calling
`processChunks` on a fresh run. -/
def initialRunState : RunState :=
  { srtLines := []
    currentChunkIndex := 0
    status := .TRANSCRIBING
    completed := false
    failedChunkIndex := none
    error := none
    contextSummary := "" }

/-- `handleEditLine` from the app component: map over the accumulated lines
replacing the text of those whose id matches. -/
def handleEditLine (lines : List SRTLine) (id : ℕ) (newText : String) : List SRTLine :=
  lines.map fun line => if line.id = id then { line with text := newText } else line

/-- Fixture: a two-chunk recording (chunk 0 non-final, chunk 1 final). -/
def chunksTwo : List AudioChunk := [⟨0, 610, 0, 2⟩, ⟨600, 630, 1, 2⟩]

/-- Fixture: responses for `chunksTwo`; chunk 0 reports a line at 100 s and
one at 350 s (inside the 600 s window but past the 300 s cutoff), chunk 1
reports one line. -/
def attTwo : ℕ → ℕ → Except String ChunkResult := fun i _ =>
  if i = 0 then
    .ok ⟨[⟨"01:40.000", "01:42.000", "a"⟩, ⟨"05:50.000", "05:52.000", "b"⟩], "s0"⟩
  else .ok ⟨[⟨"00:05.000", "00:06.000", "c"⟩], "s1"⟩

/-- Fixture: a five-chunk recording. -/
def chunksFive : List AudioChunk :=
  [⟨0, 610, 0, 5⟩, ⟨600, 1210, 1, 5⟩, ⟨1200, 1810, 2, 5⟩, ⟨1800, 2410, 3, 5⟩,
    ⟨2400, 3000, 4, 5⟩]

/-- Fixture: every chunk answers with one line at 1 s on the first attempt. -/
def attFive : ℕ → ℕ → Except String ChunkResult := fun _ _ =>
  .ok ⟨[⟨"00:01.000", "00:02.000", "line"⟩], "s"⟩

/-- Fixture: the abort signal is raised while segment 2 streams, so the
loop-top check first observes it before segment 3. -/
def abortAfterTwo : ℕ → Bool := fun i => decide (3 ≤ i)

/-- Fixture: the run of `processChunks` on `chunksFive` cancelled during
segment 2. -/
def cancelledRun : RunState :=
  processChunks chunksFive attFive abortAfterTwo 0 initialRunState

/-- Fixture: two accumulated lines for the edit-operation witness. -/
def linesTwo : List SRTLine :=
  [⟨1, some 0, some 1, "a"⟩, ⟨2, some 1, some 2, "b"⟩]


/-- Fixture: a three-chunk recording for the resumed-run scenario. -/
def chunksThree : List AudioChunk :=
  [⟨0, 610, 0, 3⟩, ⟨600, 1210, 1, 3⟩, ⟨1200, 1530, 2, 3⟩]

/-- Fixture: first-run responses — segment 0 reports a kept line at 100 s
and two overlap-zone lines at 340 s and 350 s (dropped, but each consumes
an id), segment 1 reports a kept line at 50 s, and segment 2 fails on
every attempt. -/
def attSevenFirst : ℕ → ℕ → Except String ChunkResult := fun i _ =>
  if i = 0 then
    .ok ⟨[⟨"01:40.000", "01:42.000", "a"⟩, ⟨"05:40.000", "05:42.000", "b"⟩,
      ⟨"05:50.000", "05:52.000", "c"⟩], "s0"⟩
  else if i = 1 then
    .ok ⟨[⟨"00:50.000", "00:52.000", "d"⟩], "s1"⟩
  else .error "boom"

/-- Fixture: resume responses — segment 2 now answers with one line at
10 s. -/
def attSevenResume : ℕ → ℕ → Except String ChunkResult := fun _ _ =>
  .ok ⟨[⟨"00:10.000", "00:12.000", "e"⟩], "s2"⟩

/-- Fixture: the first run over `chunksThree`, which accumulates ids 1 and
4 (ids 2 and 3 were consumed by dropped lines) and then fails at
segment 2. -/
def firstFailedRun : RunState :=
  processChunks chunksThree attSevenFirst (fun _ => false) 0 initialRunState

/-- Fixture: the run resumed at segment 2 (`resumeFromCurrent` clears the
error fields and re-enters the loop at the failed cursor); the resume
seeds `currentSrtId = srtLines.length + 1 = 3`. -/
def resumedRun : RunState :=
  processChunks chunksThree attSevenResume (fun _ => false) 2
    { firstFailedRun with failedChunkIndex := none, error := none, status := .TRANSCRIBING }

/-- Boolean comparison of two JS times that also asserts both are real
numbers (not NaN): used to state chronological ordering. -/
def leQb : Option ℚ → Option ℚ → Bool
  | some a, some b => decide (a ≤ b)
  | _, _ => false

/-- A JS number that is an actual non-negative rational. -/
def nonnegSomeB : Option ℚ → Bool
  | some q => decide (0 ≤ q)
  | _ => false

/-- The parsed segment-relative start offset of a raw response line. -/
def startOffsetQ (l : SrcLine) : Option ℚ := parseTimestampToSeconds l.start

/-- A service response whose lines are chronological, as the spec assumes:
every start offset parses to a non-negative rational and consecutive
offsets are non-decreasing. -/
def ChronoResult (r : ChunkResult) : Prop :=
  List.Pairwise (fun a b => leQb (startOffsetQ a) (startOffsetQ b) = true) r.lines
  ∧ ∀ l ∈ r.lines, nonnegSomeB (startOffsetQ l) = true

lemma jadd_some_some (a b : ℚ) : jadd (some a) (some b) = some (a + b) := rfl

lemma jsub_some_some (a b : ℚ) : jsub (some a) (some b) = some (a - b) := rfl

lemma jmul_some_some (a b : ℚ) : jmul (some a) (some b) = some (a * b) := rfl

lemma jlt_some_some (a b : ℚ) : jlt (some a) (some b) = decide (a < b) := rfl

/-- Claim C9: `parseTimestampToSeconds` is total; a field count other than
2 or 3 yields `0`, two numeric fields yield `minutes*60 + seconds`, three
numeric fields yield `hours*3600 + minutes*60 + seconds` (fractions kept
exactly). -/
theorem c9_parse_timestamp_total (ts : String) :
    ((splitOnChar ':' ts.toList).length ≠ 2 → (splitOnChar ':' ts.toList).length ≠ 3 →
      parseTimestampToSeconds ts = some 0)
    ∧ (∀ a b m s, splitOnChar ':' ts.toList = [a, b] → jsParseFloatChars a = some m →
        jsParseFloatChars b = some s →
        parseTimestampToSeconds ts = some (m * 60 + s))
    ∧ (∀ a b c h m s, splitOnChar ':' ts.toList = [a, b, c] → jsParseFloatChars a = some h →
        jsParseFloatChars b = some m → jsParseFloatChars c = some s →
        parseTimestampToSeconds ts = some (h * 3600 + m * 60 + s)) := by
  refine ⟨?_, ?_, ?_⟩
  · intro h2 h3
    unfold parseTimestampToSeconds
    rcases hs : splitOnChar ':' ts.toList with _ | ⟨a, _ | ⟨b, _ | ⟨c, _ | ⟨d, t⟩⟩⟩⟩ <;>
      simp_all
  · intro a b m s hs ha hb
    unfold parseTimestampToSeconds
    rw [hs]
    simp [ha, hb, jadd, jmul]
  · intro a b c h m s hs ha hb hc
    unfold parseTimestampToSeconds
    rw [hs]
    simp [ha, hb, hc, jadd, jmul]

/-- Claim C9 witness: a bare number and the empty string give 0; two- and
three-field timestamps give the stated arithmetic values. -/
theorem c9_parse_timestamp_total_witness :
    parseTimestampToSeconds "" = some 0
    ∧ parseTimestampToSeconds "42" = some 0
    ∧ parseTimestampToSeconds "10:05.000" = some 605
    ∧ parseTimestampToSeconds "01:02:03.500" = some (7447 / 2) := by
  refine ⟨?_, ?_, ?_, ?_⟩
  · exact (c9_parse_timestamp_total "").1 (by decide) (by decide)
  · exact (c9_parse_timestamp_total "42").1 (by decide) (by decide)
  · have h := (c9_parse_timestamp_total "10:05.000").2.1 ['1', '0'] ['0', '5', '.', '0', '0', '0']
      10 5 (by decide)
      (by rw [jsParseFloatChars, show parseFloatParts ['1', '0'] = some (false, 10, 0, 0)
            from by decide]; norm_num)
      (by rw [jsParseFloatChars, show parseFloatParts ['0', '5', '.', '0', '0', '0']
            = some (false, 5, 0, 3) from by decide]; norm_num)
    rw [h]; norm_num
  · have h := (c9_parse_timestamp_total "01:02:03.500").2.2 ['0', '1'] ['0', '2']
      ['0', '3', '.', '5', '0', '0'] 1 2 (7 / 2) (by decide)
      (by rw [jsParseFloatChars, show parseFloatParts ['0', '1'] = some (false, 1, 0, 0)
            from by decide]; norm_num)
      (by rw [jsParseFloatChars, show parseFloatParts ['0', '2'] = some (false, 2, 0, 0)
            from by decide]; norm_num)
      (by rw [jsParseFloatChars, show parseFloatParts ['0', '3', '.', '5', '0', '0']
            = some (false, 3, 500, 3) from by decide]; norm_num)
    rw [h]; norm_num

lemma handleEditLine_no_match :
    ∀ (lines : List SRTLine) (id : ℕ) (t : String),
      (∀ l ∈ lines, l.id ≠ id) → handleEditLine lines id t = lines := by
  intro lines id t
  induction lines with
  | nil => intro _; rfl
  | cons x xs ih =>
      intro h
      simp only [handleEditLine, List.map_cons]
      rw [if_neg (h x (List.mem_cons_self _ _))]
      have h2 := ih (fun l hl => h l (List.mem_cons_of_mem _ hl))
      simp only [handleEditLine] at h2
      rw [h2]

/-- Claim C10: the line-edit operation preserves length and order, touches
only the text of lines whose id matches (their id and times survive), and
is the identity when no line has the given id. -/
theorem c10_edit_line (lines : List SRTLine) (id : ℕ) (t : String) :
    (handleEditLine lines id t).length = lines.length
    ∧ (∀ k d, k < lines.length →
        (handleEditLine lines id t).getD k d =
          (if (lines.getD k d).id = id then { lines.getD k d with text := t }
           else lines.getD k d))
    ∧ (∀ k d, k < lines.length →
        ((handleEditLine lines id t).getD k d).id = (lines.getD k d).id
        ∧ ((handleEditLine lines id t).getD k d).startTime = (lines.getD k d).startTime
        ∧ ((handleEditLine lines id t).getD k d).endTime = (lines.getD k d).endTime)
    ∧ ((∀ l ∈ lines, l.id ≠ id) → handleEditLine lines id t = lines) := by
  have hpt : ∀ k (d : SRTLine), k < lines.length →
      (handleEditLine lines id t).getD k d =
        (if (lines.getD k d).id = id then { lines.getD k d with text := t }
         else lines.getD k d) := by
    intro k d hk
    simp [handleEditLine, List.getD_eq_getElem?_getD, List.getElem?_map,
      List.getElem?_eq_getElem hk]
  refine ⟨by simp [handleEditLine], hpt, ?_, handleEditLine_no_match lines id t⟩
  intro k d hk
  rw [hpt k d hk]
  by_cases h : (lines.getD k d).id = id
  · rw [if_pos h]; exact ⟨rfl, rfl, rfl⟩
  · rw [if_neg h]; exact ⟨rfl, rfl, rfl⟩

/-- Claim C10 witness: editing an id that no accumulated line has leaves
the sequence unchanged. -/
theorem c10_edit_line_witness : handleEditLine linesTwo 5 "B" = linesTwo :=
  (c10_edit_line linesTwo 5 "B").2.2.2 (by decide)

lemma parseTimestamp_eval2 (s : String) (g1 g2 : List Char) (i1 i2 f2 k2 : ℕ) (v : ℚ)
    (hs : splitOnChar ':' s.toList = [g1, g2])
    (h1 : parseFloatParts g1 = some (false, i1, 0, 0))
    (h2 : parseFloatParts g2 = some (false, i2, f2, k2))
    (hv : (i1 : ℚ) * 60 + ((i2 : ℚ) + (f2 : ℚ) / 10 ^ k2) = v) :
    parseTimestampToSeconds s = some v := by
  have ha : jsParseFloatChars g1 = some (i1 : ℚ) := by
    rw [jsParseFloatChars, h1, Option.map_some']
    norm_num
  have hb : jsParseFloatChars g2 = some ((i2 : ℚ) + (f2 : ℚ) / 10 ^ k2) := by
    rw [jsParseFloatChars, h2, Option.map_some']
    norm_num
  rw [parseTimestampToSeconds, hs]
  simp only [List.map]
  rw [ha, hb, jmul_some_some, jadd_some_some, hv]

lemma parse_0140 : parseTimestampToSeconds "01:40.000" = some 100 :=
  parseTimestamp_eval2 _ ['0', '1'] ['4', '0', '.', '0', '0', '0'] 1 40 0 3 _
    (by decide) (by decide) (by decide) (by norm_num)

lemma parse_0142 : parseTimestampToSeconds "01:42.000" = some 102 :=
  parseTimestamp_eval2 _ ['0', '1'] ['4', '2', '.', '0', '0', '0'] 1 42 0 3 _
    (by decide) (by decide) (by decide) (by norm_num)

lemma parse_0550 : parseTimestampToSeconds "05:50.000" = some 350 :=
  parseTimestamp_eval2 _ ['0', '5'] ['5', '0', '.', '0', '0', '0'] 5 50 0 3 _
    (by decide) (by decide) (by decide) (by norm_num)

lemma parse_0552 : parseTimestampToSeconds "05:52.000" = some 352 :=
  parseTimestamp_eval2 _ ['0', '5'] ['5', '2', '.', '0', '0', '0'] 5 52 0 3 _
    (by decide) (by decide) (by decide) (by norm_num)

lemma parse_0005 : parseTimestampToSeconds "00:05.000" = some 5 :=
  parseTimestamp_eval2 _ ['0', '0'] ['0', '5', '.', '0', '0', '0'] 0 5 0 3 _
    (by decide) (by decide) (by decide) (by norm_num)

lemma parse_0006 : parseTimestampToSeconds "00:06.000" = some 6 :=
  parseTimestamp_eval2 _ ['0', '0'] ['0', '6', '.', '0', '0', '0'] 0 6 0 3 _
    (by decide) (by decide) (by decide) (by norm_num)

lemma parse_0001 : parseTimestampToSeconds "00:01.000" = some 1 :=
  parseTimestamp_eval2 _ ['0', '0'] ['0', '1', '.', '0', '0', '0'] 0 1 0 3 _
    (by decide) (by decide) (by decide) (by norm_num)

lemma parse_0002 : parseTimestampToSeconds "00:02.000" = some 2 :=
  parseTimestamp_eval2 _ ['0', '0'] ['0', '2', '.', '0', '0', '0'] 0 2 0 3 _
    (by decide) (by decide) (by decide) (by norm_num)

lemma parse_0958 : parseTimestampToSeconds "09:58.000" = some 598 :=
  parseTimestamp_eval2 _ ['0', '9'] ['5', '8', '.', '0', '0', '0'] 9 58 0 3 _
    (by decide) (by decide) (by decide) (by norm_num)

lemma parse_09595 : parseTimestampToSeconds "09:59.500" = some (1199 / 2) :=
  parseTimestamp_eval2 _ ['0', '9'] ['5', '9', '.', '5', '0', '0'] 9 59 500 3 _
    (by decide) (by decide) (by decide) (by norm_num)

lemma parse_0459 : parseTimestampToSeconds "04:59.000" = some 299 :=
  parseTimestamp_eval2 _ ['0', '4'] ['5', '9', '.', '0', '0', '0'] 4 59 0 3 _
    (by decide) (by decide) (by decide) (by norm_num)

lemma parse_0501 : parseTimestampToSeconds "05:01.000" = some 301 :=
  parseTimestamp_eval2 _ ['0', '5'] ['0', '1', '.', '0', '0', '0'] 5 1 0 3 _
    (by decide) (by decide) (by decide) (by norm_num)

lemma parse_0540 : parseTimestampToSeconds "05:40.000" = some 340 :=
  parseTimestamp_eval2 _ ['0', '5'] ['4', '0', '.', '0', '0', '0'] 5 40 0 3 _
    (by decide) (by decide) (by decide) (by norm_num)

lemma parse_0542 : parseTimestampToSeconds "05:42.000" = some 342 :=
  parseTimestamp_eval2 _ ['0', '5'] ['4', '2', '.', '0', '0', '0'] 5 42 0 3 _
    (by decide) (by decide) (by decide) (by norm_num)

lemma parse_0050 : parseTimestampToSeconds "00:50.000" = some 50 :=
  parseTimestamp_eval2 _ ['0', '0'] ['5', '0', '.', '0', '0', '0'] 0 50 0 3 _
    (by decide) (by decide) (by decide) (by norm_num)

lemma parse_0052 : parseTimestampToSeconds "00:52.000" = some 52 :=
  parseTimestamp_eval2 _ ['0', '0'] ['5', '2', '.', '0', '0', '0'] 0 52 0 3 _
    (by decide) (by decide) (by decide) (by norm_num)

lemma parse_0010 : parseTimestampToSeconds "00:10.000" = some 10 :=
  parseTimestamp_eval2 _ ['0', '0'] ['1', '0', '.', '0', '0', '0'] 0 10 0 3 _
    (by decide) (by decide) (by decide) (by norm_num)

lemma parse_0012 : parseTimestampToSeconds "00:12.000" = some 12 :=
  parseTimestamp_eval2 _ ['0', '0'] ['1', '2', '.', '0', '0', '0'] 0 12 0 3 _
    (by decide) (by decide) (by decide) (by norm_num)

lemma retrySegment_eval (att : ℕ → Except String ChunkResult) :
    retrySegment att = (match att 0 with
      | .ok r => ⟨.ok (some r), 1, []⟩
      | .error _ => match att 1 with
        | .ok r => ⟨.ok (some r), 2, [2000]⟩
        | .error _ => match att 2 with
          | .ok r => ⟨.ok (some r), 3, [2000, 2000]⟩
          | .error e => ⟨.error e, 3, [2000, 2000]⟩) := by
  rcases h0 : att 0 with e0 | r0 <;> rcases h1 : att 1 with e1 | r1 <;>
    rcases h2 : att 2 with e2 | r2 <;>
    simp [retrySegment, retryLoop, h0, h1, h2]

/-- Claim C1 (code bug): on a non-final segment the reconciliation filter
keeps a line only when its segment-relative start is below
`chunkDurationLimit = 300` seconds, not the claimed `W = 600`: the line at
598 s (the spec's own kept example) is dropped, while a 299 s line is
kept, although the segmenter cuts `CHUNK_DURATION_SEC = 600`-second
windows and the source's comment says to discard only lines past 600 s. -/
theorem c1_nonfinal_filter_drops_598 :
    (validLines ⟨0, 610, 0, 2⟩ false ⟨[⟨"09:58.000", "09:59.500", "tail"⟩], "s"⟩ 1).1 = []
    ∧ (validLines ⟨0, 610, 0, 2⟩ false ⟨[⟨"04:59.000", "05:01.000", "kept"⟩], "s"⟩ 1).1
        = [⟨1, some 299, some 301, "kept"⟩]
    ∧ chunkDurationLimit = 300 ∧ CHUNK_DURATION_SEC = 600 := by
  refine ⟨?_, ?_, rfl, rfl⟩
  · norm_num [validLines, mapWithIds, keepLine, parse_0958, parse_09595, jadd_some_some,
      jsub_some_some, jlt_some_some, chunkDurationLimit, List.filter]
  · norm_num [validLines, mapWithIds, keepLine, parse_0459, parse_0501, jadd_some_some,
      jsub_some_some, jlt_some_some, chunkDurationLimit, List.filter]

/-- Claim C3 (code bug): ids are assigned inside the map, before the
overlap filter, so a dropped line consumes an id: a completed two-segment
run whose first segment had one line filtered out accumulates 2 lines with
ids `[1, 3]` — not the contiguous `1..2` the invariant demands (and a
resume would restart from `length + 1 = 3`, colliding with the existing
id 3). -/
theorem c3_completed_run_has_id_gap :
    ((processChunks chunksTwo attTwo (fun _ => false) 0 initialRunState).srtLines.map
        (fun l => l.id)) = [1, 3]
    ∧ (processChunks chunksTwo attTwo (fun _ => false) 0 initialRunState).srtLines.length = 2
    ∧ (processChunks chunksTwo attTwo (fun _ => false) 0 initialRunState).status
        = ProcessingStatus.COMPLETED := by
  have hrange : List.range' 0 (chunksTwo.length - 0) = [0, 1] := by decide
  have h0 : retrySegment (attTwo 0)
      = ⟨.ok (some ⟨[⟨"01:40.000", "01:42.000", "a"⟩, ⟨"05:50.000", "05:52.000", "b"⟩], "s0"⟩),
          1, []⟩ := by
    rw [retrySegment_eval]; rfl
  have h1 : retrySegment (attTwo 1)
      = ⟨.ok (some ⟨[⟨"00:05.000", "00:06.000", "c"⟩], "s1"⟩), 1, []⟩ := by
    rw [retrySegment_eval]; rfl
  refine ⟨?_, ?_, ?_⟩ <;>
    norm_num [processChunks, hrange, processLoop, h0, h1, chunksTwo, initialRunState,
      validLines, mapWithIds, keepLine, parse_0140, parse_0142, parse_0550, parse_0552,
      parse_0005, parse_0006, jadd_some_some, jsub_some_some, jlt_some_some,
      chunkDurationLimit, List.filter, List.getD,
      show (0 == 1) = false from rfl, show (1 == 1) = true from rfl]

/-- Claim C2 counterexample: with the abort signal raised while segment 2
of 5 streams, the signal (never forwarded to the transcription call) is
first seen at the loop-top check before segment 3; the finished run holds
the lines of segments 0, 1 AND 2 (three lines, the third at absolute time
1201 s, inside segment 2) — not only segments 0 and 1's — and its phase is
`COMPLETED` with `completed = true` ("Transcription complete!"), not a
paused state. -/
theorem c2_cancelled_run_completes_with_segment2_lines :
    cancelledRun.srtLines.map (fun l => (l.id, l.startTime))
        = [(1, some 1), (2, some 601), (3, some 1201)]
    ∧ cancelledRun.currentChunkIndex = 2
    ∧ cancelledRun.status = ProcessingStatus.COMPLETED
    ∧ cancelledRun.completed = true
    ∧ cancelledRun.error = none := by
  have hrange : List.range' 0 (chunksFive.length - 0) = [0, 1, 2, 3, 4] := by decide
  have hr : ∀ i, retrySegment (attFive i)
      = ⟨.ok (some ⟨[⟨"00:01.000", "00:02.000", "line"⟩], "s"⟩), 1, []⟩ := by
    intro i
    rw [retrySegment_eval]; rfl
  refine ⟨?_, ?_, ?_, ?_, ?_⟩ <;>
    norm_num [processChunks, cancelledRun, hrange, processLoop, hr, chunksFive, abortAfterTwo,
      initialRunState, validLines, mapWithIds, keepLine, parse_0001, parse_0002,
      jadd_some_some, jsub_some_some, jlt_some_some, chunkDurationLimit, List.filter,
      List.getD, show (0 == 4) = false from rfl, show (1 == 4) = false from rfl,
      show (2 == 4) = false from rfl]

/-- Claim C2 (amended): the abort signal is only consulted at the loop-top
check before each segment (it is never passed into the transcription call,
so no cancellation error can arise there, and the retry loop never sees
one); when the check observes it, the loop stops before that segment —
accumulated lines, cursor, error and failure index are left exactly as
they were — and the run is marked `COMPLETED`, not `ERROR`. -/
theorem c2_abort_checked_at_segment_boundary
    (chunks : List AudioChunk) (att : ℕ → ℕ → Except String ChunkResult)
    (abort : ℕ → Bool) (i : ℕ) (rest : List ℕ) (nextId : ℕ) (st : RunState)
    (h : abort i = true) :
    processLoop chunks att abort (i :: rest) nextId st
      = { st with completed := true, status := .COMPLETED } := by
  simp [processLoop, h]

/-- Claim C2 witness: stopping at the check before segment 0 on the
five-chunk fixture leaves the fresh state untouched apart from the
completion flags. -/
theorem c2_abort_checked_at_segment_boundary_witness :
    processLoop chunksFive attFive (fun _ => true) [0, 1, 2, 3, 4] 1 initialRunState
      = { initialRunState with completed := true, status := .COMPLETED } :=
  c2_abort_checked_at_segment_boundary chunksFive attFive (fun _ => true) 0 [1, 2, 3, 4] 1
    initialRunState rfl

/-- Claim C4: per segment at most 3 transcription attempts are made, with a
fixed 2000 ms wait between consecutive attempts; three failures (a
non-parsable response included) rethrow the last error, and the loop then
records the failing segment's index, sets the ERROR status and keeps the
previously accumulated lines untouched. -/
theorem c4_retry_policy :
    (∀ att, (retrySegment att).attempts ≤ 3
      ∧ (retrySegment att).waits = List.replicate ((retrySegment att).attempts - 1) 2000)
    ∧ (∀ att e0 e1 e2, att 0 = .error e0 → att 1 = .error e1 → att 2 = .error e2 →
        (retrySegment att).result = .error e2 ∧ (retrySegment att).attempts = 3)
    ∧ (∀ (chunks : List AudioChunk) att abort i rest nextId st e, abort i = false →
        (retrySegment (att i)).result = .error e →
        processLoop chunks att abort (i :: rest) nextId st =
          { st with
            currentChunkIndex := i
            error := some ("Error processing chunk " ++ toString (i + 1) ++ ": " ++ e)
            failedChunkIndex := some i
            status := .ERROR }) := by
  refine ⟨?_, ?_, ?_⟩
  · intro att
    rw [retrySegment_eval]
    rcases h0 : att 0 with e0 | r0 <;> rcases h1 : att 1 with e1 | r1 <;>
      rcases h2 : att 2 with e2 | r2 <;> simp
  · intro att e0 e1 e2 h0 h1 h2
    rw [retrySegment_eval, h0, h1, h2]
    exact ⟨rfl, rfl⟩
  · intro chunks att abort i rest nextId st e ha he
    simp only [processLoop, ha, Bool.false_eq_true, if_false]
    rw [he]

/-- Claim C4 witness: a permanently malformed response makes exactly 3
attempts with two 2000 ms waits, rethrows the error, and the loop pins the
failure to the attempted segment with the accumulated state preserved. -/
theorem c4_retry_policy_witness :
    (retrySegment (fun _ => .error "malformed")).result = .error "malformed"
    ∧ (retrySegment (fun _ => .error "malformed")).attempts = 3
    ∧ (retrySegment (fun _ => .error "malformed")).waits = [2000, 2000]
    ∧ processLoop chunksTwo (fun _ _ => .error "malformed") (fun _ => false) [1] 7
        initialRunState
      = { initialRunState with
          currentChunkIndex := 1
          error := some "Error processing chunk 2: malformed"
          failedChunkIndex := some 1
          status := .ERROR } := by
  have h := (c4_retry_policy.2.1 (fun _ => .error "malformed") "malformed" "malformed"
    "malformed" rfl rfl rfl)
  have hw := (c4_retry_policy.1 (fun _ => .error "malformed")).2
  have hl := c4_retry_policy.2.2 chunksTwo (fun _ _ => .error "malformed") (fun _ => false)
    1 [] 7 initialRunState "malformed" rfl
    (by rw [retrySegment_eval])
  refine ⟨h.1, h.2, ?_, ?_⟩
  · rw [hw, h.2]
    rfl
  · rw [hl]
    rfl



lemma foldl_append_eq_join : ∀ (l : List String) (a : String),
    l.foldl (· ++ ·) a = a ++ String.join l := by
  intro l
  induction l with
  | nil => intro a; simp [String.join]
  | cons b t ih =>
      intro a
      have hj : String.join (b :: t) = b ++ String.join t := by
        show List.foldl (· ++ ·) ("" ++ b) t = b ++ String.join t
        rw [show ("" ++ b) = b by simp, ih b]
      rw [List.foldl_cons, ih (a ++ b), hj, String.append_assoc]

lemma join_cons (a : String) (l : List String) :
    String.join (a :: l) = a ++ String.join l := by
  show List.foldl (· ++ ·) ("" ++ a) l = a ++ String.join l
  rw [show ("" ++ a) = a by simp, foldl_append_eq_join]

lemma streamAccumulate_eq_foldl (parts : List StreamPart) :
    streamAccumulate parts = parts.foldl streamStep ("", [], []) := rfl

lemma streamStep_foldl_characterization :
    ∀ (parts : List StreamPart) (full : String) (thinks outs : List String),
      parts.foldl streamStep (full, thinks, outs)
      = (full ++ String.join ((parts.filter (fun p => !p.thought && !(p.text == ""))).map
            (fun p => p.text)),
         thinks ++ (parts.filter (fun p => p.thought && !(p.text == ""))).map
            (fun p => p.text),
         outs ++ (parts.filter (fun p => !p.thought && !(p.text == ""))).map
            (fun p => p.text)) := by
  intro parts
  induction parts with
  | nil => intro full thinks outs; simp [String.join]
  | cons p ps ih =>
      intro full thinks outs
      rw [List.foldl_cons, List.filter_cons, List.filter_cons]
      rcases hth : p.thought <;> rcases htx : p.text == ""
      · have hstep : streamStep (full, thinks, outs) p
            = (full ++ p.text, thinks, outs ++ [p.text]) := by
          simp [streamStep, hth, htx]
        rw [hstep, ih]
        simp [hth, htx, join_cons, List.append_assoc, String.append_assoc]
      · have hstep : streamStep (full, thinks, outs) p = (full, thinks, outs) := by
          simp [streamStep, hth, htx]
        rw [hstep, ih]
        simp [hth, htx]
      · have hstep : streamStep (full, thinks, outs) p
            = (full, thinks ++ [p.text], outs) := by
          simp [streamStep, hth, htx]
        rw [hstep, ih]
        simp [hth, htx, List.append_assoc]
      · have hstep : streamStep (full, thinks, outs) p = (full, thinks, outs) := by
          simp [streamStep, hth, htx]
        rw [hstep, ih]
        simp [hth, htx]

/-- Claim C6: in the streaming loop, a part flagged as reasoning (with
text) goes only to the reasoning log and never into the content buffer —
the buffer and the content log consist exactly of the non-reasoning parts'
texts — and an empty buffer at stream end makes `transcribeChunk` fail
instead of parsing. -/
theorem c6_stream_classification :
    (∀ parts, (streamAccumulate parts).1
        = String.join ((parts.filter (fun p => !p.thought && !(p.text == ""))).map
            (fun p => p.text)))
    ∧ (∀ parts, (streamAccumulate parts).2.1
        = (parts.filter (fun p => p.thought && !(p.text == ""))).map (fun p => p.text))
    ∧ (∀ parts, (streamAccumulate parts).2.2
        = (parts.filter (fun p => !p.thought && !(p.text == ""))).map (fun p => p.text))
    ∧ (∀ parse parts, (streamAccumulate parts).1 = "" →
        transcribeChunk parse parts = .error "No response text generated") := by
  refine ⟨?_, ?_, ?_, ?_⟩
  · intro parts
    rw [streamAccumulate_eq_foldl, streamStep_foldl_characterization]
    simp
  · intro parts
    rw [streamAccumulate_eq_foldl, streamStep_foldl_characterization]
    simp
  · intro parts
    rw [streamAccumulate_eq_foldl, streamStep_foldl_characterization]
    simp
  · intro parse parts h
    simp [transcribeChunk, h]

/-- Claim C6 witness: a stream whose only part is reasoning text leaves the
content buffer empty and fails with the no-content error, while a stream of
one reasoning and one content part routes each text to its own channel. -/
theorem c6_stream_classification_witness :
    transcribeChunk (fun _ => none) [⟨true, "thinking"⟩]
      = .error "No response text generated"
    ∧ (streamAccumulate [⟨true, "thinking"⟩, ⟨false, "body"⟩]).1 = "body"
    ∧ (streamAccumulate [⟨true, "thinking"⟩, ⟨false, "body"⟩]).2.1 = ["thinking"]
    ∧ (streamAccumulate [⟨true, "thinking"⟩, ⟨false, "body"⟩]).2.2 = ["body"] := by
  refine ⟨c6_stream_classification.2.2.2 (fun _ => none) [⟨true, "thinking"⟩] (by rfl),
    ?_, ?_, ?_⟩
  · rw [c6_stream_classification.1]
    rfl
  · rw [c6_stream_classification.2.1]
    rfl
  · rw [c6_stream_classification.2.2.1]
    rfl

/-- Claim C5: segmentation yields exactly `ceil(D / 600)` chunks of a
`D = totalSamples/16000`-second recording; chunk `i` starts at `600*i`
seconds and ends at `min D (600*i + 610)` seconds, and the final chunk's
end is exactly `D` — the overlap tail never runs past end-of-file. -/
theorem c5_segmentation (totalSamples : ℕ) :
    (processAudioFile totalSamples).length
        = (⌈((totalSamples : ℚ) / 16000) / 600⌉).toNat
    ∧ (∀ i, i < (processAudioFile totalSamples).length →
        ((processAudioFile totalSamples).getD i default).startTime = 600 * (i : ℚ)
        ∧ ((processAudioFile totalSamples).getD i default).endTime
            = min ((totalSamples : ℚ) / 16000) (600 * (i : ℚ) + 610))
    ∧ (0 < totalSamples →
        ((processAudioFile totalSamples).getD ((processAudioFile totalSamples).length - 1)
            default).endTime
          = (totalSamples : ℚ) / 16000) := by
  set T := totalSamples with hT
  set x : ℚ := ((T : ℚ) / 16000) / 600 with hx
  set cnt : ℕ := (⌈x⌉).toNat with hcnt
  have hlen : (processAudioFile T).length = cnt := by
    simp [processAudioFile, TARGET_SAMPLE_RATE, CHUNK_DURATION_SEC, OVERLAP_SEC, hx]
  have hget : ∀ i, i < cnt →
      (processAudioFile T).getD i default =
        { startTime := 600 * (i : ℚ)
          endTime := 600 * (i : ℚ)
            + ((min T (i * 9600000 + 9600000 + 160000) - i * 9600000 : ℕ) : ℚ) / 16000
          index := i
          totalChunks := cnt } := by
    intro i hi
    have hr : (List.range cnt)[i]? = some i := List.getElem?_range hi
    simp [processAudioFile, TARGET_SAMPLE_RATE, CHUNK_DURATION_SEC, OVERLAP_SEC,
      List.getD_eq_getElem?_getD, List.getElem?_map, hx, hr]
  have hlt : ∀ i, i < cnt → i * 9600000 < T := by
    intro i hi
    have h1 : (i : ℤ) < ⌈x⌉ := Int.lt_toNat.mp hi
    have h2 : (i : ℚ) < x := Int.lt_ceil.mp h1
    have h3 : (i : ℚ) < (T : ℚ) / 9600000 := by
      rw [hx, div_div] at h2
      convert h2 using 2
      norm_num
    have h4 : (i : ℚ) * 9600000 < (T : ℚ) := by
      rw [lt_div_iff₀ (by norm_num : (0:ℚ) < 9600000)] at h3
      exact h3
    have h5 : ((i * 9600000 : ℕ) : ℚ) < (T : ℚ) := by
      push_cast
      linarith
    exact Nat.cast_lt.mp h5
  have hub : (T : ℚ) ≤ (cnt : ℚ) * 9600000 := by
    have hxpos : 0 ≤ x := by
      rw [hx]
      positivity
    have hc : (cnt : ℚ) = ((⌈x⌉ : ℤ) : ℚ) := by
      rw [hcnt]
      exact_mod_cast Int.toNat_of_nonneg (Int.ceil_nonneg hxpos)
    have hle := Int.le_ceil x
    have hle2 : x ≤ (cnt : ℚ) := by
      rw [hc]
      exact_mod_cast hle
    have hx2 : x = (T : ℚ) / 9600000 := by
      rw [hx, div_div]; norm_num
    rw [hx2, div_le_iff₀ (by norm_num : (0:ℚ) < 9600000)] at hle2
    exact hle2
  have hend : ∀ i, i < cnt →
      600 * (i : ℚ)
          + ((min T (i * 9600000 + 9600000 + 160000) - i * 9600000 : ℕ) : ℚ) / 16000
        = min ((T : ℚ) / 16000) (600 * (i : ℚ) + 610) := by
    intro i hi
    rcases le_total T (i * 9600000 + 9600000 + 160000) with hN | hN
    · rw [min_eq_left hN]
      have hq : (T : ℚ) ≤ (i : ℚ) * 9600000 + 9600000 + 160000 := by
        have h := Nat.cast_le (α := ℚ) |>.mpr hN
        push_cast at h
        linarith
      have hcast : ((T - i * 9600000 : ℕ) : ℚ) = (T : ℚ) - (i : ℚ) * 9600000 := by
        have h : ((T - i * 9600000 : ℕ) : ℚ) = ((T : ℕ) : ℚ) - ((i * 9600000 : ℕ) : ℚ) :=
          Nat.cast_sub (hlt i hi).le
        push_cast at h
        linarith
      rw [hcast]
      rw [min_eq_left (by linarith : (T : ℚ) / 16000 ≤ 600 * (i : ℚ) + 610)]
      ring
    · rw [min_eq_right hN]
      have hsub : (i * 9600000 + 9600000 + 160000 - i * 9600000 : ℕ) = 9760000 := by omega
      rw [hsub]
      have hq : (i : ℚ) * 9600000 + 9600000 + 160000 ≤ (T : ℚ) := by
        have h := Nat.cast_le (α := ℚ) |>.mpr hN
        push_cast at h
        linarith
      rw [min_eq_right (by linarith : 600 * (i : ℚ) + 610 ≤ (T : ℚ) / 16000)]
      norm_num
  refine ⟨hlen, ?_, ?_⟩
  · intro i hi
    rw [hlen] at hi
    rw [hget i hi]
    exact ⟨rfl, hend i hi⟩
  · intro hpos
    have hcpos : 0 < cnt := by
      have hxpos : 0 < x := by
        rw [hx]
        have h0 : (0:ℚ) < (T:ℚ) := by exact_mod_cast hpos
        positivity
      have h1 : (0:ℤ) < ⌈x⌉ := Int.ceil_pos.mpr hxpos
      omega
    have hi : cnt - 1 < cnt := by omega
    rw [hlen, hget (cnt - 1) hi]
    have h2 := hend (cnt - 1) hi
    simp only [h2]
    have hc1 : ((cnt - 1 : ℕ) : ℚ) = (cnt : ℚ) - 1 := by
      have h : ((cnt - 1 : ℕ) : ℚ) = ((cnt : ℕ) : ℚ) - ((1 : ℕ) : ℚ) :=
        Nat.cast_sub hcpos
      push_cast at h
      linarith
    rw [min_eq_left]
    rw [hc1]
    linarith

/-- Claim C5 witness: the spec's 1530-second scenario — 3 segments ending
at 610 s, 1210 s and exactly 1530 s. -/
theorem c5_segmentation_witness :
    (processAudioFile 24480000).length = 3
    ∧ ((processAudioFile 24480000).getD 0 default).startTime = 0
    ∧ ((processAudioFile 24480000).getD 0 default).endTime = 610
    ∧ ((processAudioFile 24480000).getD 1 default).endTime = 1210
    ∧ ((processAudioFile 24480000).getD 2 default).endTime = 1530 := by
  have h := c5_segmentation 24480000
  have hlen : (processAudioFile 24480000).length = 3 := by
    rw [h.1]
    have hc : (⌈(((24480000 : ℕ) : ℚ) / 16000) / 600⌉ : ℤ) = 3 := by
      rw [Int.ceil_eq_iff]
      norm_num
    rw [hc]
    rfl
  refine ⟨hlen, ?_, ?_, ?_, ?_⟩
  · rw [(h.2.1 0 (by rw [hlen]; norm_num)).1]
    norm_num
  · rw [(h.2.1 0 (by rw [hlen]; norm_num)).2]
    norm_num
  · rw [(h.2.1 1 (by rw [hlen]; norm_num)).2]
    norm_num
  · rw [(h.2.1 2 (by rw [hlen]; norm_num)).2]
    norm_num

lemma srtBlock_eq_specBlock (idx : ℕ) (l : SRTLine) :
    srtBlock idx l = (specBlock idx l).map (· ++ "\n") := by
  cases ha : l.startTime <;> cases hb : l.endTime <;> simp [srtBlock, specBlock, ha, hb]

lemma traverseOption_map {α β γ : Type} (f : α → Option β) (g : β → γ) :
    ∀ l : List α,
      traverseOption (fun x => (f x).map g) l = (traverseOption f l).map (List.map g) := by
  intro l
  induction l with
  | nil => rfl
  | cons x xs ih =>
      cases hf : f x with
      | none => simp [traverseOption, hf]
      | some b =>
          cases hm : traverseOption f xs with
          | none => simp [traverseOption, hf, hm, ih]
          | some bs => simp [traverseOption, hf, hm, ih]

lemma traverseOption_cons_shape {α β : Type} (f : α → Option β) (x : α) (xs : List α)
    (bs : List β) (h : traverseOption f (x :: xs) = some bs) :
    ∃ y ys, f x = some y ∧ traverseOption f xs = some ys ∧ bs = y :: ys := by
  cases hf : f x with
  | none => rw [traverseOption, hf] at h; simp at h
  | some y =>
      cases hm : traverseOption f xs with
      | none => rw [traverseOption, hf, hm] at h; simp at h
      | some ys =>
          rw [traverseOption, hf, hm] at h
          simp at h
          exact ⟨y, ys, rfl, rfl, h.symm⟩

lemma joinSep_map_newline : ∀ (bs : List String) (b : String),
    joinSep "\n" ((b :: bs).map (· ++ "\n")) = joinSep "\n\n" (b :: bs) ++ "\n" := by
  intro bs
  induction bs with
  | nil => intro b; rfl
  | cons c cs ih =>
      intro b
      show (b ++ "\n") ++ "\n" ++ joinSep "\n" ((c :: cs).map (· ++ "\n"))
        = (b ++ "\n\n" ++ joinSep "\n\n" (c :: cs)) ++ "\n"
      rw [ih c, String.append_assoc, String.append_assoc, String.append_assoc,
        String.append_assoc]
      rfl

/-- Claim C8: the serialized subtitle output is exactly the spec's block
format — one block per line in order, numbered 1-based by position (the
accumulated id order), a `start --> end` timestamp line with both ends in
`HH:MM:SS,mmm` form (comma separator, bounded fields), the text, and
consecutive blocks separated by exactly one blank line. -/
theorem c8_srt_serialization (lines : List SRTLine) (q : ℚ) :
    generateSRTContent lines = specSerializeSubtitles lines
    ∧ ∃ hh mm ss ms, hh < 24 ∧ mm < 60 ∧ ss < 60 ∧ ms < 1000
        ∧ formatSRTTimestamp q
          = pad2 hh ++ ":" ++ pad2 mm ++ ":" ++ pad2 ss ++ "," ++ pad3 ms := by
  constructor
  · cases lines with
    | nil => rfl
    | cons l ls =>
        unfold generateSRTContent specSerializeSubtitles
        have h1 : traverseOption (fun p : ℕ × SRTLine => srtBlock p.1 p.2) ((l :: ls).enum)
            = (traverseOption (fun p : ℕ × SRTLine => specBlock p.1 p.2)
                ((l :: ls).enum)).map (List.map (· ++ "\n")) := by
          rw [show (fun p : ℕ × SRTLine => srtBlock p.1 p.2)
              = (fun p : ℕ × SRTLine => (specBlock p.1 p.2).map (· ++ "\n")) from
            funext fun p => srtBlock_eq_specBlock p.1 p.2]
          exact traverseOption_map _ _ _
        rw [h1]
        cases hm : traverseOption (fun p : ℕ × SRTLine => specBlock p.1 p.2)
            ((l :: ls).enum) with
        | none => rfl
        | some bs =>
            have hsh : ∃ y ys, specBlock 0 l = some y
                ∧ traverseOption (fun p : ℕ × SRTLine => specBlock p.1 p.2)
                    (ls.enumFrom 1) = some ys
                ∧ bs = y :: ys := by
              rw [List.enum_cons] at hm
              exact traverseOption_cons_shape _ _ _ _ hm
            rcases hsh with ⟨y, ys, _, _, rfl⟩
            simp only [Option.map_some']
            rw [joinSep_map_newline]
  · refine ⟨_, _, _, _, ?_, ?_, ?_, ?_, rfl⟩
    all_goals
      have h1 : 0 ≤ (jsToInteger (q * 1000)).emod 86400000 :=
        Int.emod_nonneg _ (by norm_num)
    all_goals
      have h2 : (jsToInteger (q * 1000)).emod 86400000 < 86400000 :=
        Int.emod_lt_of_pos _ (by norm_num)
    all_goals omega

lemma retryLoop_ok_some (att : ℕ → Except String ChunkResult) :
    ∀ r k res, (retryLoop att k r).result = .ok (some res) → ∃ j, att j = .ok res := by
  intro r
  induction r with
  | zero => intro k res h; simp [retryLoop] at h
  | succ n ih =>
      intro k res h
      rcases hk : att k with e | r0
      · rw [retryLoop, hk] at h
        by_cases hn : n = 0
        · simp [hn] at h
        · simp [hn] at h
          exact ih (k + 1) res h
      · rw [retryLoop, hk] at h
        simp at h
        exact ⟨k, by rw [hk, h]⟩

lemma mapWithIds_mem {cs : ℚ} :
    ∀ {lines : List SrcLine} {n : ℕ} {l : SRTLine}, l ∈ mapWithIds cs n lines →
      ∃ src ∈ lines, l.startTime = jadd (some cs) (parseTimestampToSeconds src.start)
        ∧ l.endTime = jadd (some cs) (parseTimestampToSeconds src.stop)
        ∧ l.text = src.text ∧ n ≤ l.id ∧ l.id < n + lines.length := by
  intro lines
  induction lines with
  | nil => intro n l h; simp [mapWithIds] at h
  | cons src rest ih =>
      intro n l h
      rw [mapWithIds] at h
      rcases List.mem_cons.mp h with rfl | h2
      · exact ⟨src, List.mem_cons_self _ _, rfl, rfl, rfl, le_refl _, by simp⟩
      · rcases ih h2 with ⟨src', hmem, h1, h2', h3, h4, h5⟩
        exact ⟨src', List.mem_cons_of_mem _ hmem, h1, h2', h3, by omega, by simp; omega⟩

lemma mapWithIds_pairwise_id (cs : ℚ) :
    ∀ (lines : List SrcLine) (n : ℕ),
      List.Pairwise (fun a b => a.id < b.id) (mapWithIds cs n lines) := by
  intro lines
  induction lines with
  | nil => intro n; simp [mapWithIds]
  | cons src rest ih =>
      intro n
      rw [mapWithIds]
      refine List.pairwise_cons.mpr ⟨?_, ih (n + 1)⟩
      intro l hl
      rcases mapWithIds_mem hl with ⟨_, _, _, _, _, h4, _⟩
      simpa using lt_of_lt_of_le (by omega : n < n + 1) h4

lemma mapWithIds_pairwise_time (cs : ℚ) :
    ∀ (lines : List SrcLine) (n : ℕ),
      List.Pairwise (fun a b => leQb (startOffsetQ a) (startOffsetQ b) = true) lines →
      List.Pairwise (fun a b => leQb a.startTime b.startTime = true)
        (mapWithIds cs n lines) := by
  intro lines
  induction lines with
  | nil => intro n _; simp [mapWithIds]
  | cons src rest ih =>
      intro n hs
      rcases List.pairwise_cons.mp hs with ⟨hhead, htail⟩
      rw [mapWithIds]
      refine List.pairwise_cons.mpr ⟨?_, ih (n + 1) htail⟩
      intro l hl
      rcases mapWithIds_mem hl with ⟨src', hmem, h1, _, _, _, _⟩
      have hrel := hhead src' hmem
      rcases ho : startOffsetQ src with _ | x
      · rw [ho] at hrel; simp [leQb] at hrel
      · rcases ho' : startOffsetQ src' with _ | y
        · rw [ho, ho'] at hrel; simp [leQb] at hrel
        · rw [ho, ho'] at hrel
          simp only [leQb, decide_eq_true_eq] at hrel
          show leQb _ _ = true
          rw [h1]
          unfold startOffsetQ at ho ho'
          rw [ho, ho']
          simp [jadd, leQb]
          linarith

lemma keepLine_bound {cs : ℚ} {l : SRTLine} (h : keepLine cs false l = true) :
    ∃ t, l.startTime = some t ∧ t - cs < 300 := by
  rcases hs : l.startTime with _ | t
  · rw [keepLine, hs] at h
    simp [jsub, jlt] at h
  · rw [keepLine, hs] at h
    simp only [Bool.false_or, jsub, jlt, decide_eq_true_eq, chunkDurationLimit] at h
    exact ⟨t, rfl, h⟩

lemma validLines_mem_bounds {chunk : AudioChunk} {isLast : Bool} {r : ChunkResult}
    {startId : ℕ} {l : SRTLine} (h : l ∈ (validLines chunk isLast r startId).1) :
    l ∈ mapWithIds chunk.startTime startId r.lines
      ∧ keepLine chunk.startTime isLast l = true := by
  unfold validLines at h
  exact ⟨List.mem_of_mem_filter h, List.of_mem_filter h⟩

lemma validLines_pairwise_id {chunk : AudioChunk} {isLast : Bool} {r : ChunkResult}
    {startId : ℕ} :
    List.Pairwise (fun a b => a.id < b.id) (validLines chunk isLast r startId).1 :=
  List.Pairwise.sublist (List.filter_sublist _) (mapWithIds_pairwise_id _ _ _)

lemma validLines_pairwise_time {chunk : AudioChunk} {isLast : Bool} {r : ChunkResult}
    {startId : ℕ} (hr : ChronoResult r) :
    List.Pairwise (fun a b => leQb a.startTime b.startTime = true)
      (validLines chunk isLast r startId).1 :=
  List.Pairwise.sublist (List.filter_sublist _) (mapWithIds_pairwise_time _ _ _ hr.1)

lemma validLines_time_ge {chunk : AudioChunk} {isLast : Bool} {r : ChunkResult}
    {startId : ℕ} {l : SRTLine} (hr : ChronoResult r)
    (h : l ∈ (validLines chunk isLast r startId).1) :
    ∃ t, l.startTime = some t ∧ chunk.startTime ≤ t := by
  rcases (validLines_mem_bounds h).1 |> mapWithIds_mem with ⟨src, hmem, h1, _, _, _, _⟩
  have hnn := hr.2 src hmem
  rcases ho : startOffsetQ src with _ | x
  · rw [ho] at hnn; simp [nonnegSomeB] at hnn
  · rw [ho] at hnn
    simp only [nonnegSomeB, decide_eq_true_eq] at hnn
    refine ⟨chunk.startTime + x, ?_, by linarith⟩
    rw [h1]
    unfold startOffsetQ at ho
    rw [ho]
    rfl

lemma processLoop_cons_abort {chunks att abort i rest n st} (h : abort i = true) :
    processLoop chunks att abort (i :: rest) n st
      = { st with completed := true, status := .COMPLETED } := by
  simp [processLoop, h]

lemma processLoop_cons_error {chunks att abort i rest n st e} (h : abort i = false)
    (he : (retrySegment (att i)).result = .error e) :
    processLoop chunks att abort (i :: rest) n st
      = { st with
          currentChunkIndex := i
          error := some ("Error processing chunk " ++ toString (i + 1) ++ ": " ++ e)
          failedChunkIndex := some i
          status := .ERROR } := by
  simp only [processLoop, h, Bool.false_eq_true, if_false]
  rw [he]

lemma processLoop_cons_ok_none {chunks att abort i rest n st} (h : abort i = false)
    (he : (retrySegment (att i)).result = .ok none) :
    processLoop chunks att abort (i :: rest) n st
      = processLoop chunks att abort rest n { st with currentChunkIndex := i } := by
  simp only [processLoop, h, Bool.false_eq_true, if_false]
  rw [he]

lemma processLoop_cons_ok_some {chunks att abort i rest n st r} (h : abort i = false)
    (he : (retrySegment (att i)).result = .ok (some r)) :
    processLoop chunks att abort (i :: rest) n st
      = processLoop chunks att abort rest
          (validLines (chunks.getD i default) (i == chunks.length - 1) r n).2
          { st with
            currentChunkIndex := i
            contextSummary := r.summary
            failedChunkIndex := none
            srtLines := st.srtLines
              ++ (validLines (chunks.getD i default) (i == chunks.length - 1) r n).1 } := by
  simp only [processLoop, h, Bool.false_eq_true, if_false]
  rw [he]

lemma validLines_snd {chunk : AudioChunk} {isLast : Bool} {r : ChunkResult} {n : ℕ} :
    (validLines chunk isLast r n).2 = n + r.lines.length := rfl

lemma processLoop_nil {chunks att abort n st} :
    processLoop chunks att abort [] n st
      = { st with completed := true, status := .COMPLETED } := rfl

lemma processLoop_pairwise (chunks : List AudioChunk)
    (att : ℕ → ℕ → Except String ChunkResult) (abort : ℕ → Bool)
    (hchunk : ∀ j, j < chunks.length → (chunks.getD j default).startTime = 600 * (j : ℚ))
    (hatt : ∀ i k r, att i k = .ok r → ChronoResult r) :
    ∀ (cnt i nextId : ℕ) (st : RunState), i + cnt = chunks.length →
      List.Pairwise (fun a b => a.id < b.id) st.srtLines →
      (∀ l ∈ st.srtLines, l.id < nextId) →
      List.Pairwise (fun a b => leQb a.startTime b.startTime = true) st.srtLines →
      (∀ l ∈ st.srtLines, ∃ t, l.startTime = some t ∧ t < 600 * (i : ℚ)) →
      List.Pairwise (fun a b => a.id < b.id)
          (processLoop chunks att abort (List.range' i cnt) nextId st).srtLines
        ∧ List.Pairwise (fun a b => leQb a.startTime b.startTime = true)
            (processLoop chunks att abort (List.range' i cnt) nextId st).srtLines := by
  intro cnt
  induction cnt with
  | zero =>
      intro i nextId st hsum inv1 inv2 inv3 inv4
      simpa [List.range', processLoop_nil] using ⟨inv1, inv3⟩
  | succ c ih =>
      intro i nextId st hsum inv1 inv2 inv3 inv4
      have hilen : i < chunks.length := by omega
      rw [List.range'_succ]
      by_cases hab : abort i
      · rw [processLoop_cons_abort hab]
        exact ⟨inv1, inv3⟩
      · rcases hres : (retrySegment (att i)).result with e | o
        · rw [processLoop_cons_error (Bool.not_eq_true _ |>.mp hab) hres]
          exact ⟨inv1, inv3⟩
        · rcases o with _ | r
          · rw [processLoop_cons_ok_none (Bool.not_eq_true _ |>.mp hab) hres]
            refine ih (i + 1) nextId _ (by omega) inv1 inv2 inv3 ?_
            intro l hl
            rcases inv4 l hl with ⟨t, ht, hlt⟩
            refine ⟨t, ht, lt_of_lt_of_le hlt ?_⟩
            have : (i : ℚ) ≤ ((i + 1 : ℕ) : ℚ) := by push_cast; linarith
            linarith
          · -- a successful segment: r is chronological
            have hcr : ChronoResult r := by
              rcases retryLoop_ok_some (att i) 3 0 r hres with ⟨j, hj⟩
              exact hatt i j r hj
            have hcs : (chunks.getD i default).startTime = 600 * (i : ℚ) := hchunk i hilen
            set chunk := chunks.getD i default with hchunkdef
            set isLast := (i == chunks.length - 1) with hisLast
            set vl := (validLines chunk isLast r nextId).1 with hvl
            -- facts about the appended lines
            have hvl_id : List.Pairwise (fun a b => a.id < b.id) vl := validLines_pairwise_id
            have hvl_time : List.Pairwise (fun a b => leQb a.startTime b.startTime = true) vl :=
              validLines_pairwise_time hcr
            have hvl_lb : ∀ l ∈ vl, nextId ≤ l.id := by
              intro l hl
              rcases mapWithIds_mem (validLines_mem_bounds hl).1 with ⟨_, _, _, _, _, h4, _⟩
              exact h4
            have hvl_ub : ∀ l ∈ vl, l.id < nextId + r.lines.length := by
              intro l hl
              rcases mapWithIds_mem (validLines_mem_bounds hl).1 with ⟨_, _, _, _, _, _, h5⟩
              exact h5
            have hvl_ge : ∀ l ∈ vl, ∃ t, l.startTime = some t ∧ 600 * (i : ℚ) ≤ t := by
              intro l hl
              rcases validLines_time_ge hcr hl with ⟨t, ht, hge⟩
              rw [hcs] at hge
              exact ⟨t, ht, hge⟩
            have happ_id : List.Pairwise (fun a b => a.id < b.id) (st.srtLines ++ vl) := by
              rw [List.pairwise_append]
              refine ⟨inv1, hvl_id, ?_⟩
              intro a ha b hb
              exact lt_of_lt_of_le (inv2 a ha) (hvl_lb b hb)
            have happ_time : List.Pairwise (fun a b => leQb a.startTime b.startTime = true)
                (st.srtLines ++ vl) := by
              rw [List.pairwise_append]
              refine ⟨inv3, hvl_time, ?_⟩
              intro a ha b hb
              rcases inv4 a ha with ⟨ta, hta, hlta⟩
              rcases hvl_ge b hb with ⟨tb, htb, hgeb⟩
              rw [hta, htb]
              simp only [leQb, decide_eq_true_eq]
              linarith
            rw [processLoop_cons_ok_some (Bool.not_eq_true _ |>.mp hab) hres]
            rcases Nat.eq_zero_or_pos c with rfl | hc
            · -- final iteration: the loop ends right after this segment
              rw [show List.range' (i + 1) 0 = [] from rfl, processLoop_nil]
              exact ⟨happ_id, happ_time⟩
            · -- not the last chunk: kept lines start before the 300 s cutoff
              have hnotlast : isLast = false := by
                rw [hisLast]
                simp only [beq_eq_false_iff_ne, ne_eq]
                omega
              refine ih (i + 1) _ _ (by omega) happ_id ?_ happ_time ?_
              · intro l hl
                rw [validLines_snd]
                rcases List.mem_append.mp hl with h | h
                · exact lt_of_lt_of_le (inv2 l h) (by omega)
                · exact hvl_ub l h
              · intro l hl
                rcases List.mem_append.mp hl with h | h
                · rcases inv4 l h with ⟨t, ht, hlt⟩
                  refine ⟨t, ht, lt_of_lt_of_le hlt ?_⟩
                  push_cast
                  linarith
                · have hkeep := (validLines_mem_bounds h).2
                  have hnotlast2 : (i == chunks.length - 1) = false := by
                    simp only [beq_eq_false_iff_ne, ne_eq]
                    omega
                  rw [hnotlast2] at hkeep
                  rcases keepLine_bound hkeep with ⟨t, ht, hlt⟩
                  rw [hchunk i hilen] at hlt
                  refine ⟨t, ht, ?_⟩
                  push_cast
                  linarith

/-- Claim C7 (amended): for a run without user edits that is started from
segment 0 on fresh state (no resume), over chunks starting at `600*j`
seconds, and whose successful responses are chronological (non-negative,
non-decreasing parsed start offsets), the accumulated lines have strictly
increasing ids (so sorting by id is the accumulation order) and
non-decreasing absolute start times; and every kept line's absolute times
are the segment's absolute start plus its parsed segment-relative offsets,
with its text preserved.  The no-resume restriction is forced: resuming
reseeds ids from `length + 1`, which can fall below ids already consumed
by dropped lines, breaking the id/time correspondence. -/
theorem c7_reconciliation_monotone (chunks : List AudioChunk)
    (att : ℕ → ℕ → Except String ChunkResult) (abort : ℕ → Bool)
    (hchunk : ∀ j, j < chunks.length → (chunks.getD j default).startTime = 600 * (j : ℚ))
    (hatt : ∀ i k r, att i k = .ok r → ChronoResult r) :
    List.Pairwise (fun a b => a.id < b.id)
        (processChunks chunks att abort 0 initialRunState).srtLines
    ∧ List.Pairwise (fun a b => leQb a.startTime b.startTime = true)
        (processChunks chunks att abort 0 initialRunState).srtLines
    ∧ ∀ (chunk : AudioChunk) (isLast : Bool) (r : ChunkResult) (startId : ℕ)
        (l : SRTLine), l ∈ (validLines chunk isLast r startId).1 →
        ∃ src ∈ r.lines,
          l.startTime = jadd (some chunk.startTime) (parseTimestampToSeconds src.start)
          ∧ l.endTime = jadd (some chunk.startTime) (parseTimestampToSeconds src.stop)
          ∧ l.text = src.text := by
  have hpc : processChunks chunks att abort 0 initialRunState
      = processLoop chunks att abort (List.range' 0 chunks.length) 1 initialRunState := by
    unfold processChunks
    norm_num
  have h := processLoop_pairwise chunks att abort hchunk hatt chunks.length 0 1
    initialRunState (by omega) (by simp [initialRunState]) (by simp [initialRunState])
    (by simp [initialRunState]) (by simp [initialRunState])
  refine ⟨by rw [hpc]; exact h.1, by rw [hpc]; exact h.2, ?_⟩
  intro chunk isLast r startId l hl
  rcases mapWithIds_mem (validLines_mem_bounds hl).1 with ⟨src, hmem, h1, h2, h3, _, _⟩
  exact ⟨src, hmem, h1, h2, h3⟩

/-- Claim C7 witness: the two-chunk fixture with chronological responses
satisfies both orderings. -/
theorem c7_reconciliation_monotone_witness :
    List.Pairwise (fun a b => a.id < b.id)
        (processChunks chunksTwo attTwo (fun _ => false) 0 initialRunState).srtLines
    ∧ List.Pairwise (fun a b => leQb a.startTime b.startTime = true)
        (processChunks chunksTwo attTwo (fun _ => false) 0 initialRunState).srtLines := by
  have hchunk : ∀ j, j < chunksTwo.length →
      (chunksTwo.getD j default).startTime = 600 * (j : ℚ) := by
    intro j hj
    have hj2 : j < 2 := by simpa [chunksTwo] using hj
    interval_cases j <;> norm_num [chunksTwo]
  have hatt : ∀ i k r, attTwo i k = .ok r → ChronoResult r := by
    intro i k r hr
    by_cases hi : i = 0
    · simp only [attTwo, hi, if_pos, Except.ok.injEq] at hr
      subst hr
      constructor
      · refine List.pairwise_cons.mpr ⟨?_, List.pairwise_singleton _ _⟩
        intro l hl
        simp only [List.mem_singleton] at hl
        subst hl
        show leQb (startOffsetQ ⟨"01:40.000", "01:42.000", "a"⟩)
          (startOffsetQ ⟨"05:50.000", "05:52.000", "b"⟩) = true
        unfold startOffsetQ
        rw [show (⟨"01:40.000", "01:42.000", "a"⟩ : SrcLine).start = "01:40.000" from rfl,
          show (⟨"05:50.000", "05:52.000", "b"⟩ : SrcLine).start = "05:50.000" from rfl,
          parse_0140, parse_0550]
        simp only [leQb, decide_eq_true_eq]
        norm_num
      · intro l hl
        rcases List.mem_cons.mp hl with rfl | hl2
        · show nonnegSomeB (startOffsetQ ⟨"01:40.000", "01:42.000", "a"⟩) = true
          unfold startOffsetQ
          rw [show (⟨"01:40.000", "01:42.000", "a"⟩ : SrcLine).start = "01:40.000" from rfl,
            parse_0140]
          simp only [nonnegSomeB, decide_eq_true_eq]
          norm_num
        · rcases List.mem_singleton.mp hl2 with rfl
          show nonnegSomeB (startOffsetQ ⟨"05:50.000", "05:52.000", "b"⟩) = true
          unfold startOffsetQ
          rw [show (⟨"05:50.000", "05:52.000", "b"⟩ : SrcLine).start = "05:50.000" from rfl,
            parse_0550]
          simp only [nonnegSomeB, decide_eq_true_eq]
          norm_num
    · simp only [attTwo, hi, if_neg, if_false, Except.ok.injEq] at hr
      subst hr
      constructor
      · exact List.pairwise_singleton _ _
      · intro l hl
        rcases List.mem_singleton.mp hl with rfl
        show nonnegSomeB (startOffsetQ ⟨"00:05.000", "00:06.000", "c"⟩) = true
        unfold startOffsetQ
        rw [show (⟨"00:05.000", "00:06.000", "c"⟩ : SrcLine).start = "00:05.000" from rfl,
          parse_0005]
        simp only [nonnegSomeB, decide_eq_true_eq]
        norm_num
  have h := c7_reconciliation_monotone chunksTwo attTwo (fun _ => false) hchunk hatt
  exact ⟨h.1, h.2.1⟩

/-- Claim C7 counterexample: on a resumed run without user edits the
property fails.  The first run drops two overlap-zone lines of segment 0
(which still consume ids 2 and 3), accumulates ids 1 and 4, and fails at
segment 2; the resume seeds `currentSrtId = length + 1 = 3`, so the
completed run holds ids `[1, 4, 3]` with start times 100 s, 650 s and
1210 s — sorted by id that is `(1, 100), (3, 1210), (4, 650)`, not
non-decreasing in start time. -/
theorem c7_resumed_run_not_monotone :
    resumedRun.srtLines.map (fun l => (l.id, l.startTime))
        = [(1, some 100), (4, some 650), (3, some 1210)]
    ∧ resumedRun.status = ProcessingStatus.COMPLETED
    ∧ ¬ (∀ a ∈ resumedRun.srtLines, ∀ b ∈ resumedRun.srtLines,
          a.id < b.id → leQb a.startTime b.startTime = true) := by
  have hrange : List.range' 0 (chunksThree.length - 0) = [0, 1, 2] := by decide
  have h0 : retrySegment (attSevenFirst 0)
      = ⟨.ok (some ⟨[⟨"01:40.000", "01:42.000", "a"⟩, ⟨"05:40.000", "05:42.000", "b"⟩,
          ⟨"05:50.000", "05:52.000", "c"⟩], "s0"⟩), 1, []⟩ := by
    rw [retrySegment_eval]; rfl
  have h1 : retrySegment (attSevenFirst 1)
      = ⟨.ok (some ⟨[⟨"00:50.000", "00:52.000", "d"⟩], "s1"⟩), 1, []⟩ := by
    rw [retrySegment_eval]; rfl
  have h2 : retrySegment (attSevenFirst 2) = ⟨.error "boom", 3, [2000, 2000]⟩ := by
    rw [retrySegment_eval]; rfl
  have hfirst : firstFailedRun =
      { srtLines := [⟨1, some 100, some 102, "a"⟩, ⟨4, some 650, some 652, "d"⟩]
        currentChunkIndex := 2
        status := .ERROR
        completed := false
        failedChunkIndex := some 2
        error := some "Error processing chunk 3: boom"
        contextSummary := "s1" } := by
    norm_num [firstFailedRun, processChunks, hrange, processLoop, h0, h1, h2, chunksThree,
      initialRunState, validLines, mapWithIds, keepLine, parse_0140, parse_0142, parse_0540,
      parse_0542, parse_0550, parse_0552, parse_0050, parse_0052, jadd_some_some,
      jsub_some_some, jlt_some_some, chunkDurationLimit, List.filter, List.getD,
      show (0 == 2) = false from rfl, show (1 == 2) = false from rfl]
    rfl
  have hrange2 : List.range' 2 (chunksThree.length - 2) = [2] := by decide
  have hr2 : retrySegment (attSevenResume 2)
      = ⟨.ok (some ⟨[⟨"00:10.000", "00:12.000", "e"⟩], "s2"⟩), 1, []⟩ := by
    rw [retrySegment_eval]; rfl
  have hlines : resumedRun.srtLines
      = [⟨1, some 100, some 102, "a"⟩, ⟨4, some 650, some 652, "d"⟩,
          ⟨3, some 1210, some 1212, "e"⟩] := by
    norm_num [resumedRun, hfirst, processChunks, hrange2, processLoop, hr2, chunksThree,
      validLines, mapWithIds, keepLine, parse_0010, parse_0012, jadd_some_some,
      jsub_some_some, jlt_some_some, chunkDurationLimit, List.filter, List.getD,
      show (2 == 2) = true from rfl]
  have hstatus : resumedRun.status = ProcessingStatus.COMPLETED := by
    norm_num [resumedRun, hfirst, processChunks, hrange2, processLoop, hr2, chunksThree,
      validLines, mapWithIds, keepLine, parse_0010, parse_0012, jadd_some_some,
      jsub_some_some, jlt_some_some, chunkDurationLimit, List.filter, List.getD,
      show (2 == 2) = true from rfl]
  refine ⟨by rw [hlines]; norm_num, hstatus, ?_⟩
  intro h
  have hmem3 : (⟨3, some 1210, some 1212, "e"⟩ : SRTLine) ∈ resumedRun.srtLines := by
    rw [hlines]
    exact List.mem_cons_of_mem _ (List.mem_cons_of_mem _ (List.mem_cons_self _ _))
  have hmem4 : (⟨4, some 650, some 652, "d"⟩ : SRTLine) ∈ resumedRun.srtLines := by
    rw [hlines]
    exact List.mem_cons_of_mem _ (List.mem_cons_self _ _)
  have hviol := h ⟨3, some 1210, some 1212, "e"⟩ hmem3 ⟨4, some 650, some 652, "d"⟩ hmem4
    (by norm_num)
  simp only [leQb, decide_eq_true_eq] at hviol
  norm_num at hviol
